import Mathlib

/-!
Verification of the pulumicost-plugin-vantage adapter core.

This file shallowly embeds the Go source of the adapter:
* `internal/vantage/client` — HTTP retrier (`doCostsRequest`,
  `doCostsRequestOnce`, `shouldRetry`, `waitBeforeRetry`,
  `parseRateLimitReset`), the cursor `Pager`, and `New`'s configuration
  normalisation;
* `internal/vantage/adapter` — `GenerateLineItemID`, tag normalisation,
  `mapVantageRowToCostRecord`, `addDiagnostics`, `generateQueryHash`,
  `syncSingleRange` and `syncForecast`.

Go `time.Time` values are modelled as an instant (Unix seconds) plus a fixed
zone offset, since the only operations the embedded code performs are
`Format("2006-01-02")`, `Format(time.RFC3339)` and `time.Parse(time.RFC3339)`.
Go `float64` metric values are modelled as exact rationals; `%.16g` formatting
is modelled by `fmtG16` below.  Go maps are modelled as association lists,
with `Option` distinguishing a nil map from an empty one.
-/

/-- Model of Go `time.Time`: the absolute instant in Unix seconds together
with the fixed zone offset (in minutes) of the value's location.  Go's
`Format` renders the wall clock of the value's own location. -/
structure GoTime where
  sec : Int
  offsetMin : Int
  deriving DecidableEq

/-- Civil date from a day number (days since 1970-01-01), proleptic
Gregorian calendar (Howard Hinnant's `civil_from_days`). -/
def civilFromDays (z0 : Int) : Int × Nat × Nat :=
  let z := z0 + 719468
  let era : Int := Int.fdiv z 146097
  let doe : Nat := (z - era * 146097).toNat
  let yoe : Nat := (doe - doe / 1460 + doe / 36524 - doe / 146096) / 365
  let y : Int := (yoe : Int) + era * 400
  let doy : Nat := doe - (365 * yoe + yoe / 4 - yoe / 100)
  let mp : Nat := (5 * doy + 2) / 153
  let d : Nat := doy - (153 * mp + 2) / 5 + 1
  let m : Nat := if mp < 10 then mp + 3 else mp - 9
  (y + (if m ≤ 2 then 1 else 0), m, d)

/-- Day number (days since 1970-01-01) of a civil date (inverse of
`civilFromDays`; Hinnant's `days_from_civil`). -/
def daysFromCivil (y : Int) (m d : Nat) : Int :=
  let y' : Int := y - (if m ≤ 2 then 1 else 0)
  let era : Int := Int.fdiv y' 400
  let yoe : Nat := (y' - era * 400).toNat
  let mp : Nat := if 2 < m then m - 3 else m + 9
  let doy : Nat := (153 * mp + 2) / 5 + d - 1
  let doe : Nat := yoe * 365 + yoe / 4 - yoe / 100 + doy
  era * 146097 + (doe : Int) - 719468

/-- Wall-clock seconds of the value's own location. -/
def GoTime.localSec (t : GoTime) : Int := t.sec + t.offsetMin * 60

/-- Day number of the wall clock in the value's own location. -/
def GoTime.localDays (t : GoTime) : Int := Int.fdiv t.localSec 86400

/-- Second of day of the wall clock in the value's own location. -/
def GoTime.localSecOfDay (t : GoTime) : Nat := (Int.emod t.localSec 86400).toNat

/-- Day number of the instant in UTC. -/
def GoTime.utcDay (t : GoTime) : Int := Int.fdiv t.sec 86400

/-- UTC calendar date of the instant. -/
def GoTime.utcCivilDate (t : GoTime) : Int × Nat × Nat := civilFromDays t.utcDay

/-- Two-digit zero padded decimal. -/
def pad2 (n : Nat) : String := if n < 10 then "0" ++ toString n else toString n

/-- Four-digit zero padded year (the years exercised here are positive). -/
def pad4 (y : Int) : String :=
  let n := y.toNat
  if n < 10 then "000" ++ toString n
  else if n < 100 then "00" ++ toString n
  else if n < 1000 then "0" ++ toString n
  else toString n

/-- Go `t.Format("2006-01-02")`: the calendar date of the wall clock in the
value's own location (note: not converted to UTC). -/
def goFormatDate (t : GoTime) : String :=
  let ymd := civilFromDays t.localDays
  pad4 ymd.1 ++ "-" ++ pad2 ymd.2.1 ++ "-" ++ pad2 ymd.2.2

/-- Zone suffix of Go's RFC3339 layout `2006-01-02T15:04:05Z07:00`. -/
def offsetSuffix (off : Int) : String :=
  if off = 0 then "Z"
  else if 0 < off then "+" ++ pad2 (off.toNat / 60) ++ ":" ++ pad2 (off.toNat % 60)
  else "-" ++ pad2 ((-off).toNat / 60) ++ ":" ++ pad2 ((-off).toNat % 60)

/-- Go `t.Format(time.RFC3339)`. -/
def goFormatRFC3339 (t : GoTime) : String :=
  let sod := t.localSecOfDay
  goFormatDate t ++ "T" ++ pad2 (sod / 3600) ++ ":" ++ pad2 (sod % 3600 / 60) ++ ":"
    ++ pad2 (sod % 60) ++ offsetSuffix t.offsetMin

/-- Decimal digit value of a character, if it is a digit. -/
def digitVal (c : Char) : Option Nat :=
  if c.isDigit then some (c.toNat - 48) else none

/-- Read exactly `n` decimal digits from the front of a character list. -/
def readDigits : Nat → List Char → Option (Nat × List Char)
  | 0, cs => some (0, cs)
  | _ + 1, [] => none
  | n + 1, c :: cs => do
    let d ← digitVal c
    let (rest, tl) ← readDigits n cs
    pure (d * 10 ^ n + rest, tl)

/-- Expect a literal character at the front of a character list. -/
def expectChar (c : Char) : List Char → Option (List Char)
  | [] => none
  | c' :: cs => if c' = c then some cs else none

/-- Parse the RFC3339 zone suffix: `Z` or `±hh:mm`; the offset in minutes. -/
def parseZoneOffset : List Char → Option Int
  | ['Z'] => some 0
  | c :: rest =>
    let sign? : Option Int := if c = '+' then some 1 else if c = '-' then some (-1) else none
    match sign?, readDigits 2 rest with
    | some sign, some (oh, rest1) =>
      match expectChar ':' rest1 with
      | some rest2 =>
        match readDigits 2 rest2 with
        | some (om, rest3) =>
          if rest3 = [] ∧ oh ≤ 23 ∧ om ≤ 59 then some (sign * ((oh * 60 + om : Nat) : Int))
          else none
        | none => none
      | none => none
    | _, _ => none
  | [] => none

/-- Parse `YYYY-MM-DDThh:mm:ss` and return the wall-clock seconds together
with the unconsumed remainder of the input. -/
def parseDateTimePart (cs : List Char) : Option (Int × List Char) :=
  match readDigits 4 cs with
  | none => none
  | some (y, cs1) =>
    match expectChar '-' cs1 with
    | none => none
    | some cs2 =>
      match readDigits 2 cs2 with
      | none => none
      | some (mo, cs3) =>
        match expectChar '-' cs3 with
        | none => none
        | some cs4 =>
          match readDigits 2 cs4 with
          | none => none
          | some (d, cs5) =>
            match expectChar 'T' cs5 with
            | none => none
            | some cs6 =>
              match readDigits 2 cs6 with
              | none => none
              | some (h, cs7) =>
                match expectChar ':' cs7 with
                | none => none
                | some cs8 =>
                  match readDigits 2 cs8 with
                  | none => none
                  | some (mi, cs9) =>
                    match expectChar ':' cs9 with
                    | none => none
                    | some cs10 =>
                      match readDigits 2 cs10 with
                      | none => none
                      | some (sec, cs11) =>
                        if 1 ≤ mo ∧ mo ≤ 12 ∧ 1 ≤ d ∧ d ≤ 31 ∧ h ≤ 23 ∧ mi ≤ 59 ∧ sec ≤ 59 then
                          some (daysFromCivil (y : Int) mo d * 86400
                                  + ((h * 3600 + mi * 60 + sec : Nat) : Int), cs11)
                        else none

/-- Model of Go `time.Parse(time.RFC3339, s)` restricted to the layout the
adapter itself emits: `YYYY-MM-DDThh:mm:ss` followed by `Z` or `±hh:mm`
(fractional seconds are not modelled; the adapter never writes them). -/
def parseRFC3339 (s : String) : Option GoTime :=
  match parseDateTimePart s.data with
  | none => none
  | some (localSec, rest) =>
    match parseZoneOffset rest with
    | none => none
    | some off => some { sec := localSec - off * 60, offsetMin := off }
/-- UTF-8 encoding of a character, as byte values. -/
def charUtf8 (c : Char) : List Nat :=
  let n := c.toNat
  if n < 128 then [n]
  else if n < 2048 then [192 + n / 64, 128 + n % 64]
  else if n < 65536 then [224 + n / 4096, 128 + n / 64 % 64, 128 + n % 64]
  else [240 + n / 262144, 128 + n / 4096 % 64, 128 + n / 64 % 64, 128 + n % 64]

/-- Bytes of a string, as Go's `[]byte(s)` (UTF-8). -/
def strBytes (s : String) : List Nat := s.data.flatMap charUtf8

def u32mask : Nat := 4294967295

def add32 (a b : Nat) : Nat := (a + b) % 4294967296

def rotr32 (x k : Nat) : Nat := ((x >>> k) ||| (x <<< (32 - k))) &&& u32mask

def bigSigma0 (x : Nat) : Nat := rotr32 x 2 ^^^ rotr32 x 13 ^^^ rotr32 x 22
def bigSigma1 (x : Nat) : Nat := rotr32 x 6 ^^^ rotr32 x 11 ^^^ rotr32 x 25
def smallSigma0 (x : Nat) : Nat := rotr32 x 7 ^^^ rotr32 x 18 ^^^ (x >>> 3)
def smallSigma1 (x : Nat) : Nat := rotr32 x 17 ^^^ rotr32 x 19 ^^^ (x >>> 10)
def chWord (x y z : Nat) : Nat := (x &&& y) ^^^ ((x ^^^ u32mask) &&& z)
def majWord (x y z : Nat) : Nat := (x &&& y) ^^^ (x &&& z) ^^^ (y &&& z)

def sha256K : Array Nat := #[
  1116352408, 1899447441, 3049323471, 3921009573, 961987163, 1508970993,
  2453635748, 2870763221, 3624381080, 310598401, 607225278, 1426881987,
  1925078388, 2162078206, 2614888103, 3248222580, 3835390401, 4022224774,
  264347078, 604807628, 770255983, 1249150122, 1555081692, 1996064986,
  2554220882, 2821834349, 2952996808, 3210313671, 3336571891, 3584528711,
  113926993, 338241895, 666307205, 773529912, 1294757372, 1396182291,
  1695183700, 1986661051, 2177026350, 2456956037, 2730485921, 2820302411,
  3259730800, 3345764771, 3516065817, 3600352804, 4094571909, 275423344,
  430227734, 506948616, 659060556, 883997877, 958139571, 1322822218,
  1537002063, 1747873779, 1955562222, 2024104815, 2227730452, 2361852424,
  2428436474, 2756734187, 3204031479, 3329325298]

def sha256H0 : Array Nat := #[
  1779033703, 3144134277, 1013904242, 2773480762,
  1359893119, 2600822924, 528734635, 1541459225]

/-- 64-bit big-endian byte representation of a number. -/
def be64 (n : Nat) : List Nat :=
  [n >>> 56 &&& 255, n >>> 48 &&& 255, n >>> 40 &&& 255, n >>> 32 &&& 255,
   n >>> 24 &&& 255, n >>> 16 &&& 255, n >>> 8 &&& 255, n &&& 255]

/-- SHA-256 message padding. -/
def padMessage (msg : List Nat) : List Nat :=
  let len := msg.length
  let k := (119 - len % 64) % 64
  msg ++ [128] ++ List.replicate k 0 ++ be64 (8 * len)

/-- Split a byte list into 64-byte chunks (the padded message length is
always a multiple of 64). -/
def chunks64 (l : List Nat) : List (List Nat) :=
  let st := l.foldl
    (fun (st : List (List Nat) × List Nat) b =>
      let cur := st.2 ++ [b]
      if cur.length = 64 then (st.1 ++ [cur], []) else (st.1, cur))
    ([], [])
  if st.2 = [] then st.1 else st.1 ++ [st.2]

/-- The sixteen big-endian 32-bit words of one 64-byte block. -/
def blockWords (bs : List Nat) : Array Nat :=
  (Array.range 16).map fun i =>
    bs.getD (4 * i) 0 <<< 24 ||| bs.getD (4 * i + 1) 0 <<< 16
      ||| bs.getD (4 * i + 2) 0 <<< 8 ||| bs.getD (4 * i + 3) 0

/-- Extend the 16 block words to the 64-entry message schedule. -/
def extendSchedule (w0 : Array Nat) : Array Nat :=
  (List.range 48).foldl (fun w j =>
    let i := j + 16
    w.push (add32 (add32 (smallSigma1 (w.getD (i - 2) 0)) (w.getD (i - 7) 0))
                  (add32 (smallSigma0 (w.getD (i - 15) 0)) (w.getD (i - 16) 0)))) w0

/-- One SHA-256 round on the working state `#[a,b,c,d,e,f,g,h]`. -/
def roundStep (w : Array Nat) (st : Array Nat) (i : Nat) : Array Nat :=
  let a := st.getD 0 0
  let b := st.getD 1 0
  let c := st.getD 2 0
  let d := st.getD 3 0
  let e := st.getD 4 0
  let f := st.getD 5 0
  let g := st.getD 6 0
  let h := st.getD 7 0
  let t1 := add32 h (add32 (bigSigma1 e) (add32 (chWord e f g) (add32 (sha256K.getD i 0) (w.getD i 0))))
  let t2 := add32 (bigSigma0 a) (majWord a b c)
  #[add32 t1 t2, a, b, c, add32 d t1, e, f, g]

/-- SHA-256 compression of one block into the hash state. -/
def sha256Compress (h : Array Nat) (block : List Nat) : Array Nat :=
  let w := extendSchedule (blockWords block)
  let st := (List.range 64).foldl (roundStep w) h
  (Array.range 8).map fun i => add32 (h.getD i 0) (st.getD i 0)

/-- SHA-256 digest (32 bytes) of a byte list. -/
def sha256Bytes (msg : List Nat) : List Nat :=
  let hs := (chunks64 (padMessage msg)).foldl sha256Compress sha256H0
  hs.toList.flatMap fun w => [w >>> 24 &&& 255, w >>> 16 &&& 255, w >>> 8 &&& 255, w &&& 255]

def hexDigit (n : Nat) : Char := if n < 10 then Char.ofNat (48 + n) else Char.ofNat (87 + n)

def byteHex (b : Nat) : String := String.mk [hexDigit (b / 16), hexDigit (b % 16)]

/-- Go `fmt.Sprintf("%x", hash[:16])`: the first 16 digest bytes as 32
lowercase hex characters. -/
def sha256Hex16 (s : String) : String :=
  String.join (((sha256Bytes (strBytes s)).take 16).map byteHex)

/-- Lexicographic comparison of character lists by code point (on UTF-8
text this agrees with Go's byte-wise string order). -/
def lexLeb : List Char → List Char → Bool
  | [], _ => true
  | _ :: _, [] => false
  | a :: as, b :: bs => if a < b then true else if b < a then false else lexLeb as bs

/-- Go string `<=`. -/
def strLeb (a b : String) : Bool := lexLeb a.data b.data

/-- Go `sort.Strings`: ascending lexicographic sort (modelled by insertion
sort; any correct sort is extensionally the same function). -/
def sortStrings (l : List String) : List String :=
  List.insertionSort (fun a b => strLeb a b = true) l

/-- Does `pat` occur as a contiguous sublist of `s`? -/
def infixAt : List Char → List Char → Bool
  | pat, [] => pat.isEmpty
  | pat, c :: rest => pat.isPrefixOf (c :: rest) || infixAt pat rest

/-- Substring test: Go `strings.Contains`. -/
def containsSub (s pat : String) : Bool := infixAt pat.data s.data

/-- Model of Go `fmt.Sprintf("%.16g", x)` restricted to the behaviour the
identifier relies on: sign, integer part, and up to sixteen fractional
digits with trailing zeros trimmed.  (`%.16g` of a `float64` uses
scientific notation only outside the magnitudes exercised here; equal
values always format equally, which is all the identifier theorems use.) -/
def fmtG16 (q : ℚ) : String :=
  if q = 0 then "0"
  else
    let sign := if q.num < 0 then "-" else ""
    let n : Nat := q.num.natAbs
    let d : Nat := q.den
    let ip : Nat := n / d
    let scaled : Nat := n % d * 10 ^ 16 / d
    if scaled = 0 then sign ++ toString ip
    else
      let digits := toString scaled
      let padded := String.mk (List.replicate (16 - digits.length) '0') ++ digits
      let trimmed := String.mk (padded.data.reverse.dropWhile (· = '0')).reverse
      sign ++ toString ip ++ "." ++ trimmed

/-- The client package's `CostRow` struct
(`internal/vantage/client/logger.go`, types segment): one vendor cost row
with the six dimension values, the tag mapping, the numeric `float64`
metrics, currency and bucket bounds.  `tags = none` models a nil Go map;
the `float64` metrics are exact rationals here. -/
structure CostRow where
  bucketStart : GoTime
  bucketEnd : GoTime
  provider : String
  service : String
  account : String
  project : String
  region : String
  resourceID : String
  tags : Option (List (String × String))
  cost : ℚ
  usageQuantity : ℚ
  effectiveUnitPrice : ℚ
  listCost : ℚ
  amortizedCost : ℚ
  tax : ℚ
  credit : ℚ
  refund : ℚ
  usageUnit : String
  currency : String
  deriving DecidableEq

/-- The row's tag entries; Go's `len` and `range` treat a nil map as empty. -/
def rowTags (row : CostRow) : List (String × String) := row.tags.getD []

/-- The pipe-joined pre-hash string of `GenerateLineItemID`
(`internal/vantage/adapter`, part_010): report token, bucket-start date,
the six dimensions, sorted `k=v` tags, sorted metric names, the eight
`%.16g` numeric metrics, usage unit and currency. -/
def lineItemSerial (reportToken : String) (row : CostRow) (metrics : List String) : String :=
  let tagStr :=
    if 0 < (rowTags row).length then
      String.intercalate ";" (sortStrings ((rowTags row).map fun kv => kv.1 ++ "=" ++ kv.2))
    else ""
  let parts : List String :=
    [reportToken, goFormatDate row.bucketStart,
     row.provider, row.service, row.account, row.project, row.region, row.resourceID,
     tagStr,
     String.intercalate "," (sortStrings metrics),
     fmtG16 row.cost, fmtG16 row.usageQuantity, fmtG16 row.effectiveUnitPrice,
     fmtG16 row.listCost, fmtG16 row.amortizedCost, fmtG16 row.tax,
     fmtG16 row.credit, fmtG16 row.refund,
     row.usageUnit, row.currency]
  String.intercalate "|" parts

/-- `GenerateLineItemID`: first 128 bits of the SHA-256 of the serialised
row, as 32 lowercase hex characters. -/
def generateLineItemID (reportToken : String) (row : CostRow) (metrics : List String) : String :=
  sha256Hex16 (lineItemSerial reportToken row metrics)

/-- Collapse runs of `-` to a single `-`: the fixpoint of the source's
`for strings.Contains(key, "--") { key = strings.ReplaceAll(key, "--", "-") }`
loop. -/
def collapseDashes (l : List Char) : List Char :=
  l.foldr (fun c acc => if c = '-' ∧ acc.head? = some '-' then acc else c :: acc) []

/-- Go `strings.Trim(key, "-")`. -/
def trimDashes (l : List Char) : List Char :=
  ((l.dropWhile (· = '-')).reverse.dropWhile (· = '-')).reverse

/-- `normalizeTagKey` (`internal/vantage/adapter`): lowercase, replace `_`
and space with `-`, collapse `--` runs, trim `-` from both ends.  (Lean's
`Char.toLower` lowers ASCII letters; Go's `strings.ToLower` also lowers
non-ASCII letters, which the adapter's tag keys do not contain.) -/
def normalizeTagKey (key : String) : String :=
  let cs := key.data.map Char.toLower
  let cs := cs.map fun c => if c = '_' ∨ c = ' ' then '-' else c
  String.mk (trimDashes (collapseDashes cs))

/-- Everything after the first occurrence of `pat`, if `pat` occurs. -/
def afterFirst (pat : List Char) : List Char → Option (List Char)
  | [] => if pat.isEmpty then some [] else none
  | c :: rest =>
    if pat.isPrefixOf (c :: rest) then some ((c :: rest).drop pat.length)
    else afterFirst pat rest

/-- Unanchored match of the regex `.*p1.*p2.*`: an occurrence of `p1`
followed (disjointly) by an occurrence of `p2`. -/
def matchSeq (p1 p2 : String) (s : String) : Bool :=
  match afterFirst p1.data s.data with
  | none => false
  | some rest => infixAt p2.data rest

/-- `shouldIncludeTag`: denylist of the three high-cardinality regex
patterns, then the allow-prefix check, then allow by default (the value
argument is unused in the source as well). -/
def shouldIncludeTag (key : String) (_value : String) : Bool :=
  if matchSeq "pod" "uid" key ∨ matchSeq "container" "id" key ∨ matchSeq "node" "name" key then
    false
  else if "user:".isPrefixOf key ∨ "kubernetes.io/".isPrefixOf key then
    true
  else
    true

/-- Go map assignment `m[k] = v` on an association list. -/
def upsert (k v : String) : List (String × String) → List (String × String)
  | [] => [(k, v)]
  | (k', v') :: rest => if k' = k then (k, v) :: rest else (k', v') :: upsert k v rest

/-- `normalizeTags`: nil map in, nil map out; otherwise build a fresh map
from the normalised keys of the entries that pass the filter.  A non-nil
input always produces a non-nil (`some`) map, even when empty. -/
def normalizeTags (tags : Option (List (String × String))) : Option (List (String × String)) :=
  match tags with
  | none => none
  | some l =>
    some (l.foldl (fun acc kv =>
      let nk := normalizeTagKey kv.1
      if shouldIncludeTag nk kv.2 then upsert nk kv.2 acc else acc) [])

/-- Per-record diagnostics (`internal/vantage/adapter/diagnostics.go`):
`missingFields` maps field names to reasons (a Go map, association list
here); `sourceInfo` is never written on the mapping path and is omitted. -/
structure Diagnostics where
  missingFields : List (String × String)
  warnings : List String
  deriving DecidableEq

/-- `Diagnostics.HasIssues`. -/
def Diagnostics.hasIssues (d : Diagnostics) : Bool :=
  0 < d.missingFields.length ∨ 0 < d.warnings.length

/-- Canonical cost record (`CostRecord` in `internal/vantage/adapter`);
`none` on a numeric field models a nil pointer ("absent"). -/
structure CostRecord where
  timestamp : GoTime
  provider : String
  service : String
  accountID : String
  subscriptionID : String
  project : String
  region : String
  resourceID : String
  labels : Option (List (String × String))
  usageAmount : Option ℚ
  usageUnit : String
  listCost : Option ℚ
  netCost : Option ℚ
  amortizedCost : Option ℚ
  taxCost : Option ℚ
  creditAmount : Option ℚ
  refundAmount : Option ℚ
  currency : String
  sourceReportToken : String
  queryHash : String
  lineItemID : String
  metricType : String
  diagnostics : Option Diagnostics
  deriving DecidableEq

/-- The source's `if row.X != 0 { record.X = &row.X }` lifting: zero maps
to absent. -/
def optOfNonzero (q : ℚ) : Option ℚ := if q = 0 then none else some q

/-- The missing-required-field checks of `addDiagnostics`, in source
order, as (field, reason) entries. -/
def missingFieldChecks (record : CostRecord) : List (String × String) :=
  (if record.provider = "" then
    [("provider", "required FOCUS 1.2 field cloud_provider is empty")] else [])
  ++ (if record.service = "" then
    [("service", "required FOCUS 1.2 field service_name is empty")] else [])
  ++ (if record.accountID = "" then
    [("account_id", "FOCUS 1.2 field billing_account_id is empty")] else [])
  ++ (if record.region = "" then
    [("region", "FOCUS 1.2 field region is empty")] else [])
  ++ (if record.currency = "" then
    [("currency", "FOCUS 1.2 field billing_currency is empty")] else [])
  ++ (if (match record.netCost with | none => true | some c => c = 0) then
    [("net_cost", "required FOCUS 1.2 field net_cost is nil or zero")] else [])

/-- `record.UsageAmount != nil && *record.UsageAmount != 0`. -/
def usagePresentNonzero (o : Option ℚ) : Bool :=
  match o with
  | some a => decide (a ≠ 0)
  | none => false

/-- `record.NetCost != nil && *record.NetCost < 0`. -/
def netCostNegative (o : Option ℚ) : Bool :=
  match o with
  | some c => decide (c < 0)
  | none => false

/-- `record.ListCost != nil && record.NetCost != nil && *ListCost < *NetCost`. -/
def listBelowNet (l n : Option ℚ) : Bool :=
  match l, n with
  | some lv, some nv => decide (lv < nv)
  | _, _ => false

/-- The data-quality warning checks of `addDiagnostics`, in source order. -/
def warningChecks (record : CostRecord) : List String :=
  (if usagePresentNonzero record.usageAmount ∧ record.usageUnit = ""
   then ["usage_amount_present_but_unit_missing"] else [])
  ++ (if record.usageAmount = none ∧ record.usageUnit ≠ ""
   then ["usage_unit_present_but_amount_missing"] else [])
  ++ (if netCostNegative record.netCost
   then ["negative_net_cost"] else [])
  ++ (if listBelowNet record.listCost record.netCost
   then ["list_cost_less_than_net_cost"] else [])
  ++ (if record.resourceID = "" ∧ record.service ≠ ""
   then ["missing_resource_id"] else [])

/-- `addDiagnostics`: attach the accumulated diagnostics, or `none` when
no check fired. -/
def addDiagnostics (record : CostRecord) : CostRecord :=
  let d : Diagnostics := { missingFields := missingFieldChecks record,
                           warnings := warningChecks record }
  if d.hasIssues then { record with diagnostics := some d }
  else { record with diagnostics := none }

/-- The client package's `Query` struct
(`internal/vantage/client/logger.go`, types segment): the parameters of
one `/costs` request, including the opaque pagination cursor. -/
structure Query where
  workspaceToken : String
  costReportToken : String
  startAt : GoTime
  endAt : GoTime
  granularity : String
  groupBys : List String
  metrics : List String
  pageSize : Int
  cursor : String
  deriving DecidableEq

/-- The client package's `Page` struct
(`internal/vantage/client/logger.go`, types segment): one page of the
costs endpoint, `{ data, next_cursor, has_more }`. -/
structure Page where
  data : List CostRow
  nextCursor : String
  hasMore : Bool
  deriving DecidableEq

/-- `mapVantageRowToCostRecord` (`internal/vantage/adapter`, part_013):
field copies, zero-to-absent numeric lifting, tag normalisation, line item
identifier, then `addDiagnostics`. -/
def mapVantageRowToCostRecord (row : CostRow) (query : Query)
    (queryHash metricType : String) : CostRecord :=
  let base : CostRecord := {
    timestamp := row.bucketStart
    provider := row.provider
    service := row.service
    accountID := row.account
    subscriptionID := ""
    project := row.project
    region := row.region
    resourceID := row.resourceID
    labels := normalizeTags row.tags
    usageAmount := optOfNonzero row.usageQuantity
    usageUnit := row.usageUnit
    listCost := optOfNonzero row.listCost
    netCost := optOfNonzero row.cost
    amortizedCost := optOfNonzero row.amortizedCost
    taxCost := optOfNonzero row.tax
    creditAmount := optOfNonzero row.credit
    refundAmount := optOfNonzero row.refund
    currency := row.currency
    sourceReportToken := query.costReportToken
    queryHash := queryHash
    lineItemID := generateLineItemID query.costReportToken row query.metrics
    metricType := metricType
    diagnostics := none }
  addDiagnostics base

/-- The cursor `Pager` (`internal/vantage/client`, part_017): the held
query (whose `cursor` field is the current cursor) and the
`hasStarted` flag. -/
structure Pager where
  query : Query
  hasStarted : Bool
  deriving DecidableEq

/-- `NewPager`. -/
def newPager (q : Query) : Pager := { query := q, hasStarted := false }

/-- Result of one `NextPage` call: the updated pager, the returned page or
error, and whether the underlying client's `Costs` method was invoked. -/
structure NextPageResult where
  pager : Pager
  result : Except String Page
  clientCalled : Bool

/-- `Pager.NextPage`, with the underlying client's `Costs` behaviour
supplied as a function of the dispatched query. -/
def Pager.nextPage (p : Pager) (costs : Query → Except String Page) : NextPageResult :=
  if p.hasStarted ∧ p.query.cursor = "" then
    { pager := p, result := .error "no more pages available", clientCalled := false }
  else
    match costs p.query with
    | .error e =>
      { pager := p, result := .error ("fetching costs page: " ++ e), clientCalled := true }
    | .ok page =>
      { pager := { query := { p.query with cursor := page.nextCursor }, hasStarted := true },
        result := .ok page,
        clientCalled := true }

/-- `Pager.HasMore`: true iff the stored cursor is non-empty. -/
def Pager.hasMore (p : Pager) : Bool := p.query.cursor ≠ ""

/-- The pager states reachable from `NewPager` on a query with an empty
initial cursor (the spec's §3 queries carry an empty cursor on the first
page), under arbitrary client behaviour. -/
inductive PagerReachable : Pager → Prop where
  | init (q : Query) (hq : q.cursor = "") : PagerReachable (newPager q)
  | step (p : Pager) (costs : Query → Except String Page) :
      PagerReachable p → PagerReachable (p.nextPage costs).pager

/-- What the network returns for one HTTP attempt of the costs request:
either a transport-level failure of `httpClient.Do`, or a response with
status code, the two rate-limit headers (absent headers read as `""` via
`Header.Get`), the raw body, and the JSON decode outcome of the body. -/
inductive AttemptResult where
  | netErr (msg : String)
  | resp (status : Nat) (xRateLimitReset : Option String) (retryAfter : Option String)
      (body : String) (decoded : Except String Page)

/-- The two error shapes `doCostsRequestOnce` produces: the typed
`rateLimitError` (carrying `resetIn`, in whole seconds here) and plain
`fmt.Errorf` errors identified by their message. -/
inductive VError where
  | rateLimit (resetInSec : Int)
  | plain (msg : String)
  deriving DecidableEq

/-- The message of an error, as `err.Error()` renders it (`rateLimitError`
prints its reset duration; only used inside the budget-exhaustion wrap,
never by `shouldRetry`, which detects `rateLimitError` with `errors.As`). -/
def VError.toMessage : VError → String
  | .rateLimit d => "rate limited, reset in " ++ toString d ++ "s"
  | .plain msg => msg

/-- Go `strconv.ParseInt(s, 10, 64)` on the digits (overflow at 2^63 is
not modelled; header values are small). -/
def goParseInt (s : String) : Option Int :=
  let digits : List Char → Option Nat := fun l =>
    if l.isEmpty then none
    else l.foldl (fun acc c => acc.bind fun a =>
      match digitVal c with
      | some d => some (10 * a + d)
      | none => none) (some 0)
  match s.data with
  | '+' :: rest => (digits rest).map fun n => (n : Int)
  | '-' :: rest => (digits rest).map fun n => -(n : Int)
  | l => (digits l).map fun n => (n : Int)

/-- `parseRateLimitReset`: `X-RateLimit-Reset`, falling back to
`Retry-After`; empty or unparseable yields 0. -/
def parseRateLimitReset (xRateLimitReset retryAfter : Option String) : Int :=
  let resetStr := if xRateLimitReset.getD "" ≠ "" then xRateLimitReset.getD ""
                  else retryAfter.getD ""
  if resetStr = "" then 0
  else match goParseInt resetStr with
    | some n => n
    | none => 0

/-- `doCostsRequestOnce`'s outcome classification: a 429 with a positive
parsed reset becomes a `rateLimitError`; any other non-200 status (a 429
without a usable header included) becomes the plain status error; a 200
body is decoded. -/
def doCostsRequestOnce : AttemptResult → Except VError Page
  | .netErr m => .error (.plain ("executing request: " ++ m))
  | .resp status xReset retryAfter body decoded =>
    if status = 429 ∧ 0 < parseRateLimitReset xReset retryAfter then
      .error (.rateLimit (parseRateLimitReset xReset retryAfter))
    else if status ≠ 200 then
      .error (.plain ("API request failed with status " ++ toString status ++ ": " ++ body))
    else
      match decoded with
      | .error dm => .error (.plain ("decoding response: " ++ dm))
      | .ok page => .ok page

/-- `shouldRetry`: inside the budget, a `rateLimitError` always retries;
other errors retry iff their message mentions a retriable 5xx code. -/
def shouldRetry (maxRetries : Int) (e : VError) (attempt : Int) : Bool :=
  if maxRetries ≤ attempt then false
  else match e with
    | .rateLimit _ => true
    | .plain msg =>
      containsSub msg "502" || containsSub msg "503" || containsSub msg "504"
        || containsSub msg "500"

/-- Nanoseconds per second (`time.Second`). -/
def nsPerSec : Int := 1000000000

/-- `waitBeforeRetry`'s sleep duration in nanoseconds:
`base * 2^attempt`, jittered by `(1 + (u*0.5 - 0.25)) = (3/4 + u/2)`
where `u` is the `rand.Float64()` draw (computed here exactly over the
rational draw `u = num/den` as `delay*(3*den + 2*num) / (4*den)`,
truncated), then capped at 30s.  Note the computed duration depends only
on the attempt number and the jitter draw — the rate-limit reset duration
is never consulted. -/
def waitDelayNs (attempt : Nat) (u : ℚ) : Int :=
  let delay : Int := nsPerSec * 2 ^ attempt
  let jittered : Int :=
    Int.fdiv (delay * (3 * (u.den : Int) + 2 * u.num)) (4 * (u.den : Int))
  if 30 * nsPerSec < jittered then 30 * nsPerSec else jittered

/-- The final wrapped error of `doCostsRequest`:
`"costs request failed after %d attempts: %w"` with `maxRetries+1`. -/
def exhaustMsg (maxRetries : Int) (lastErr : Option VError) : String :=
  "costs request failed after " ++ toString (maxRetries + 1) ++ " attempts: "
    ++ (match lastErr with | some e => e.toMessage | none => "")

/-- Observable trace of one `doCostsRequest` run: the final outcome, how
many times the transport (`doCostsRequestOnce`) was invoked, and the
sleeps performed between attempts (in nanoseconds). -/
structure RetryTrace where
  result : Except String Page
  invocations : Nat
  sleepsNs : List Int

/-- The `for attempt := 0; attempt <= maxRetries; attempt++` loop of
`doCostsRequest`, over the list of remaining attempt indices; `script`
gives each attempt's network behaviour and `jitter` each attempt's
`rand.Float64()` draw. -/
def retryLoop (maxRetries : Int) (script : Nat → AttemptResult) (jitter : Nat → ℚ) :
    List Nat → Option VError → RetryTrace
  | [], lastErr => { result := .error (exhaustMsg maxRetries lastErr), invocations := 0, sleepsNs := [] }
  | i :: rest, _ =>
    match doCostsRequestOnce (script i) with
    | .ok page => { result := .ok page, invocations := 1, sleepsNs := [] }
    | .error e =>
      if shouldRetry maxRetries e (i : Int) then
        let t := retryLoop maxRetries script jitter rest (some e)
        { result := t.result, invocations := t.invocations + 1,
          sleepsNs := waitDelayNs i (jitter i) :: t.sleepsNs }
      else
        { result := .error (exhaustMsg maxRetries (some e)), invocations := 1, sleepsNs := [] }

/-- `doCostsRequest` on the retrier's own `maxRetries` budget. -/
def doCostsRequest (maxRetries : Int) (script : Nat → AttemptResult) (jitter : Nat → ℚ) :
    RetryTrace :=
  retryLoop maxRetries script jitter (List.range (maxRetries + 1).toNat) none

/-- `New`'s defensive default (`client.go`): a configured
`MaxRetries <= 0` is replaced by the default of 5. -/
def effectiveMaxRetries (configured : Int) : Int :=
  if configured ≤ 0 then 5 else configured

/-- A costs request issued through a client built by `New` with the given
configured `MaxRetries`. -/
def clientDoCostsRequest (configuredMaxRetries : Int) (script : Nat → AttemptResult)
    (jitter : Nat → ℚ) : RetryTrace :=
  doCostsRequest (effectiveMaxRetries configuredMaxRetries) script jitter

/-- The adapter configuration fields consumed by `syncSingleRange`
(`internal/vantage/adapter/config.go` exposes more; only these reach the
single-range sync). -/
structure AdapterConfig where
  workspaceToken : String
  costReportToken : String
  granularity : String
  groupBys : List String
  metrics : List String
  pageSize : Int
  includeForecast : Bool

/-- The client package's `ForecastRow` struct
(`internal/vantage/client/logger.go`, types segment): one forecast row
`{ bucket_start, bucket_end, cost, currency }`. -/
structure ForecastRow where
  bucketStart : GoTime
  bucketEnd : GoTime
  cost : ℚ
  currency : String
  deriving DecidableEq

/-- `generateQueryHash` (`internal/vantage/adapter`): SHA-256 over the
pipe-joined tokens, RFC3339 range, granularity and sorted group-bys and
metrics, truncated to 32 hex characters. -/
def generateQueryHash (query : Query) : String :=
  let parts : List String :=
    [query.workspaceToken, query.costReportToken,
     goFormatRFC3339 query.startAt, goFormatRFC3339 query.endAt, query.granularity,
     String.intercalate "," (sortStrings query.groupBys),
     String.intercalate "," (sortStrings query.metrics)]
  sha256Hex16 (String.intercalate "|" parts)

/-- The query `syncSingleRange` builds from the configuration and range
(before any bookmark is applied; its cursor starts empty). -/
def buildSyncQuery (cfg : AdapterConfig) (startDate endDate : GoTime) : Query :=
  { workspaceToken := cfg.workspaceToken
    costReportToken := cfg.costReportToken
    startAt := startDate
    endAt := endDate
    granularity := cfg.granularity
    groupBys := cfg.groupBys
    metrics := cfg.metrics
    pageSize := cfg.pageSize
    cursor := "" }

/-- `syncSingleRange`'s query hash, computed on the built query before the
bookmark is applied. -/
def syncQueryHash (cfg : AdapterConfig) (startDate endDate : GoTime) : String :=
  generateQueryHash (buildSyncQuery cfg startDate endDate)

/-- `bookmarkKey := fmt.Sprintf("vantage_%s", queryHash)`. -/
def syncBookmarkKey (cfg : AdapterConfig) (startDate endDate : GoTime) : String :=
  "vantage_" ++ syncQueryHash cfg startDate endDate

/-- Calls `syncSingleRange` makes on the sink, in order. -/
inductive SinkEvent where
  | getBookmark (key : String)
  | writeRecords (records : List CostRecord)
  | setBookmark (key : String) (value : String)
  deriving DecidableEq

/-- The sink's behaviour as seen by one `syncSingleRange` run:
`GetBookmark`'s outcome, `WriteRecords`' outcome per call index (`none` is
success), and `SetBookmark`'s outcome. -/
structure SinkBehavior where
  getBookmarkRes : Except String String
  writeRes : Nat → Option String
  setBookmarkRes : Option String

/-- `applyBookmark`: for a non-backfill sync, read the bookmark; if the
read succeeded with a non-empty, RFC3339-parseable value, overwrite the
query's start instant. -/
def appliedQuery (cfg : AdapterConfig) (startDate endDate : GoTime) (isBackfill : Bool)
    (sink : SinkBehavior) : Query :=
  let query := buildSyncQuery cfg startDate endDate
  if isBackfill then query
  else
    match sink.getBookmarkRes with
    | .error _ => query
    | .ok lastEndDate =>
      if lastEndDate = "" then query
      else
        match parseRFC3339 lastEndDate with
        | some parsed => { query with startAt := parsed }
        | none => query

/-- The page-accumulation loop of `fetchAndCollectRecords`, driven by the
scripted client responses (one entry per `Costs` call; an exhausted
script behaves as a network failure).  Returns the collected records (or
the first error) and the page count. -/
def fetchLoop (query : Query) (queryHash : String) :
    List (Except String Page) → Pager → Nat → List CostRecord →
    Except String (List CostRecord) × Nat
  | [], pager, pageCount, acc =>
    if pager.hasMore || pageCount == 0 then
      (.error "fetching page: fetching costs page: no scripted response", 0)
    else (.ok acc, pageCount)
  | r :: rest, pager, pageCount, acc =>
    if pager.hasMore || pageCount == 0 then
      let n := pager.nextPage (fun _ => r)
      match n.result with
      | .error e => (.error ("fetching page: " ++ e), 0)
      | .ok page =>
        let acc1 := acc ++ page.data.map fun row =>
          mapVantageRowToCostRecord row query queryHash "cost"
        if !page.hasMore then (.ok acc1, pageCount + 1)
        else fetchLoop query queryHash rest n.pager (pageCount + 1) acc1
    else (.ok acc, pageCount)

/-- `fetchAndCollectRecords`: drive a fresh pager over the query. -/
def fetchAndCollectRecords (query : Query) (queryHash : String)
    (responses : List (Except String Page)) : Except String (List CostRecord) × Nat :=
  fetchLoop query queryHash responses (newPager query) 0 []

/-- Go's zero `time.Time` as the model carries it (the mapper never reads
the query's instants, so only its presence matters). -/
def goTimeZero : GoTime := { sec := -62135596800, offsetMin := 0 }

/-- The records `syncForecast` builds: each forecast row is mapped through
`mapVantageRowToCostRecord` with metric type `"forecast"` on a vendor row
populated only with bucket bounds, cost and currency, and a query carrying
only the report token and granularity. -/
def syncForecastRecords (cfg : AdapterConfig) (queryHash : String)
    (rows : List ForecastRow) : List CostRecord :=
  rows.map fun row =>
    mapVantageRowToCostRecord
      { bucketStart := row.bucketStart
        bucketEnd := row.bucketEnd
        provider := ""
        service := ""
        account := ""
        project := ""
        region := ""
        resourceID := ""
        tags := none
        cost := row.cost
        usageQuantity := 0
        effectiveUnitPrice := 0
        listCost := 0
        amortizedCost := 0
        tax := 0
        credit := 0
        refund := 0
        usageUnit := ""
        currency := row.currency }
      { workspaceToken := ""
        costReportToken := cfg.costReportToken
        startAt := goTimeZero
        endAt := goTimeZero
        granularity := cfg.granularity
        groupBys := []
        metrics := []
        pageSize := 0
        cursor := "" }
      queryHash "forecast"

/-- The sink calls of `handleForecast`: nothing when the branch is
disabled or the forecast fetch fails (failure is only logged); otherwise
the forecast records are written (that write's own failure is also only
logged). -/
def forecastEvents (cfg : AdapterConfig) (queryHash : String)
    (forecastRes : Except String (List ForecastRow)) : List SinkEvent :=
  if cfg.includeForecast ∧ cfg.costReportToken ≠ "" then
    match forecastRes with
    | .error _ => []
    | .ok rows => [SinkEvent.writeRecords (syncForecastRecords cfg queryHash rows)]
  else []

/-- Outcome of one `syncSingleRange` run: the ordered sink calls and the
returned error (`none` is a nil return). -/
structure SyncOutcome where
  events : List SinkEvent
  errorResult : Option String

/-- `syncSingleRange`: build the query and hash, apply the bookmark
(incremental only), fetch and collect, write, update the bookmark
(incremental only; its failure only logged), then the forecast branch. -/
def syncSingleRange (cfg : AdapterConfig) (startDate endDate : GoTime) (isBackfill : Bool)
    (sink : SinkBehavior) (costResponses : List (Except String Page))
    (forecastRes : Except String (List ForecastRow)) : SyncOutcome :=
  let queryHash := syncQueryHash cfg startDate endDate
  let bookmarkKey := syncBookmarkKey cfg startDate endDate
  let events0 : List SinkEvent :=
    if isBackfill then [] else [SinkEvent.getBookmark bookmarkKey]
  let query := appliedQuery cfg startDate endDate isBackfill sink
  match (fetchAndCollectRecords query queryHash costResponses).1 with
  | .error e => { events := events0, errorResult := some e }
  | .ok allRecords =>
    let events1 := events0 ++ [SinkEvent.writeRecords allRecords]
    match sink.writeRes 0 with
    | some e => { events := events1, errorResult := some ("writing records: " ++ e) }
    | none =>
      let events2 := events1 ++
        (if isBackfill then []
         else [SinkEvent.setBookmark bookmarkKey (goFormatRFC3339 endDate)])
      { events := events2 ++ forecastEvents cfg queryHash forecastRes,
        errorResult := none }

/-- Agreement on the identifier inputs named by the spec (§4.4): report
token, bucket-start calendar date (as the code formats it for hashing),
the six dimension values, the tag pairs as a set (permutation of the
entries), the requested metric names as a set, the eight numeric metric
values, usage unit and currency. -/
abbrev identifierInputsAgree (t₁ t₂ : String) (r₁ r₂ : CostRow) (m₁ m₂ : List String) : Prop :=
  t₁ = t₂ ∧
  goFormatDate r₁.bucketStart = goFormatDate r₂.bucketStart ∧
  r₁.provider = r₂.provider ∧ r₁.service = r₂.service ∧ r₁.account = r₂.account ∧
  r₁.project = r₂.project ∧ r₁.region = r₂.region ∧ r₁.resourceID = r₂.resourceID ∧
  (rowTags r₁).Perm (rowTags r₂) ∧ m₁.Perm m₂ ∧
  r₁.cost = r₂.cost ∧ r₁.usageQuantity = r₂.usageQuantity ∧
  r₁.effectiveUnitPrice = r₂.effectiveUnitPrice ∧ r₁.listCost = r₂.listCost ∧
  r₁.amortizedCost = r₂.amortizedCost ∧ r₁.tax = r₂.tax ∧ r₁.credit = r₂.credit ∧
  r₁.refund = r₂.refund ∧ r₁.usageUnit = r₂.usageUnit ∧ r₁.currency = r₂.currency

/-- An all-zero cost row (Go zero value), for concrete instantiations. -/
def emptyRow : CostRow :=
  { bucketStart := { sec := 0, offsetMin := 0 }
    bucketEnd := { sec := 0, offsetMin := 0 }
    provider := "", service := "", account := "", project := "", region := ""
    resourceID := "", tags := none
    cost := 0, usageQuantity := 0, effectiveUnitPrice := 0, listCost := 0
    amortizedCost := 0, tax := 0, credit := 0, refund := 0
    usageUnit := "", currency := "" }

/-- An empty terminal page. -/
def emptyPage : Page := { data := [], nextCursor := "", hasMore := false }

/-- A zero-valued query, for concrete instantiations. -/
def emptyQuery : Query :=
  { workspaceToken := "", costReportToken := "", startAt := { sec := 0, offsetMin := 0 }
    endAt := { sec := 0, offsetMin := 0 }, granularity := "", groupBys := []
    metrics := [], pageSize := 0, cursor := "" }

/-- Attempt script for the rate-limit run: attempt 0 sees a 429 with
`X-RateLimit-Reset: 10`, every later attempt a clean 200. -/
def c1Script : Nat → AttemptResult := fun i =>
  if i = 0 then .resp 429 (some "10") none "" (.error "unread")
  else .resp 200 none none "" (.ok emptyPage)

/-- Attempt script that always answers 429 with `X-RateLimit-Reset: 1`. -/
def c3Script : Nat → AttemptResult := fun _ =>
  .resp 429 (some "1") none "" (.error "unread")

/-- 2024-01-01T23:00:00Z carried in UTC. -/
def c5RowUTC : CostRow :=
  { emptyRow with bucketStart := { sec := 1704150000, offsetMin := 0 },
                  provider := "aws", currency := "USD" }

/-- The same instant carried at offset +02:00 (2024-01-02T01:00:00+02:00). -/
def c5RowPlus2 : CostRow :=
  { emptyRow with bucketStart := { sec := 1704150000, offsetMin := 120 },
                  provider := "aws", currency := "USD" }

/-- Decidable equality of `Except` outcomes, for concrete evaluation. -/
instance {ε α : Type} [DecidableEq ε] [DecidableEq α] : DecidableEq (Except ε α) :=
  fun a b =>
    match a, b with
    | .ok x, .ok y =>
      if h : x = y then .isTrue (by rw [h]) else .isFalse fun hc => h (Except.ok.inj hc)
    | .error e, .error f =>
      if h : e = f then .isTrue (by rw [h]) else .isFalse fun hc => h (Except.error.inj hc)
    | .ok _, .error _ => .isFalse fun hc => Except.noConfusion hc
    | .error _, .ok _ => .isFalse fun hc => Except.noConfusion hc

/-- A first page carrying a continuation cursor. -/
def c7Page : Page := { emptyPage with nextCursor := "c", hasMore := true }

/-- The pager after one successful fetch of `c7Page` from a fresh pager. -/
def c7Pager : Pager := ((newPager emptyQuery).nextPage (fun _ => .ok c7Page)).pager

/-- A terminal pager: one page fetched, empty stored cursor. -/
def c9Pager : Pager := { query := emptyQuery, hasStarted := true }

/-- A fully populated, internally consistent cost row. -/
def c6Row : CostRow :=
  { emptyRow with
    provider := "aws", service := "EC2", account := "123",
    region := "us-east-1", currency := "USD", resourceID := "i-1",
    cost := mkRat 5025 100, listCost := 60, usageQuantity := 5, usageUnit := "hours" }

/-- A configuration with the forecast branch enabled. -/
def c2Config : AdapterConfig :=
  { workspaceToken := "", costReportToken := "rpt", granularity := "day",
    groupBys := [], metrics := ["cost"], pageSize := 100, includeForecast := true }

/-- 2024-01-01T00:00:00Z. -/
def c2Start : GoTime := { sec := 1704067200, offsetMin := 0 }

/-- 2024-01-02T00:00:00Z. -/
def c2End : GoTime := { sec := 1704153600, offsetMin := 0 }

/-- A sink with no stored bookmark, successful writes, and a failing
`SetBookmark`. -/
def c2Sink : SinkBehavior :=
  { getBookmarkRes := .ok "", writeRes := fun _ => none, setBookmarkRes := some "boom" }

/-- One forecast row: January 2024, cost 123.45 USD. -/
def c10Row : ForecastRow :=
  { bucketStart := { sec := 1704067200, offsetMin := 0 },
    bucketEnd := { sec := 1706745600, offsetMin := 0 },
    cost := mkRat 12345 100, currency := "USD" }

/-! ### Helper lemmas -/

theorem lexLeb_total : ∀ as bs : List Char, lexLeb as bs = true ∨ lexLeb bs as = true
  | [], _ => Or.inl rfl
  | _ :: _, [] => Or.inr rfl
  | a :: as, b :: bs => by
    by_cases hab : a < b
    · left; simp [lexLeb, hab]
    · by_cases hba : b < a
      · right; simp [lexLeb, hba]
      · have hEq : a = b := le_antisymm (not_lt.mp hba) (not_lt.mp hab)
        subst hEq
        rcases lexLeb_total as bs with h | h
        · left; simp [lexLeb, lt_irrefl, h]
        · right; simp [lexLeb, lt_irrefl, h]

theorem lexLeb_trans : ∀ as bs cs : List Char,
    lexLeb as bs = true → lexLeb bs cs = true → lexLeb as cs = true
  | [], _, _, _, _ => rfl
  | _ :: _, [], _, h1, _ => by simp [lexLeb] at h1
  | _ :: _, _ :: _, [], _, h2 => by simp [lexLeb] at h2
  | a :: as, b :: bs, c :: cs, h1, h2 => by
    by_cases hab : a < b
    · by_cases hbc : b < c
      · simp [lexLeb, lt_trans hab hbc]
      · by_cases hcb : c < b
        · simp [lexLeb, hbc, hcb] at h2
        · have : b = c := le_antisymm (not_lt.mp hcb) (not_lt.mp hbc)
          subst this
          simp [lexLeb, hab]
    · by_cases hba : b < a
      · simp [lexLeb, hab, hba] at h1
      · have : a = b := le_antisymm (not_lt.mp hba) (not_lt.mp hab)
        subst this
        simp only [lexLeb, lt_irrefl, if_false] at h1
        by_cases hac : a < c
        · simp [lexLeb, hac]
        · by_cases hca : c < a
          · simp [lexLeb, hac, hca] at h2
          · simp only [lexLeb, hac, hca, if_false]
            simp only [lexLeb, hac, hca, if_false] at h2
            exact lexLeb_trans as bs cs h1 h2

theorem lexLeb_antisymm : ∀ as bs : List Char,
    lexLeb as bs = true → lexLeb bs as = true → as = bs
  | [], [], _, _ => rfl
  | [], _ :: _, _, h2 => by simp [lexLeb] at h2
  | _ :: _, [], h1, _ => by simp [lexLeb] at h1
  | a :: as, b :: bs, h1, h2 => by
    by_cases hab : a < b
    · simp [lexLeb, lt_asymm hab, hab] at h2
    · by_cases hba : b < a
      · simp [lexLeb, hab, hba] at h1
      · have : a = b := le_antisymm (not_lt.mp hba) (not_lt.mp hab)
        subst this
        simp only [lexLeb, lt_irrefl, if_false] at h1 h2
        rw [lexLeb_antisymm as bs h1 h2]

theorem strLeb_antisymm (a b : String) (h1 : strLeb a b = true) (h2 : strLeb b a = true) :
    a = b := by
  cases a with
  | mk da =>
    cases b with
    | mk db => exact congrArg String.mk (lexLeb_antisymm da db h1 h2)

theorem sortStrings_sorted (l : List String) :
    List.Sorted (fun a b => strLeb a b = true) (sortStrings l) := by
  haveI : IsTotal String (fun a b => strLeb a b = true) :=
    ⟨fun a b => lexLeb_total a.data b.data⟩
  haveI : IsTrans String (fun a b => strLeb a b = true) :=
    ⟨fun a b c => lexLeb_trans a.data b.data c.data⟩
  exact List.sorted_insertionSort _ l

theorem sortStrings_perm_eq {l₁ l₂ : List String} (h : l₁.Perm l₂) :
    sortStrings l₁ = sortStrings l₂ := by
  haveI : IsAntisymm String (fun a b => strLeb a b = true) := ⟨strLeb_antisymm⟩
  exact List.eq_of_perm_of_sorted
    (((List.perm_insertionSort _ l₁).trans h).trans (List.perm_insertionSort _ l₂).symm)
    (sortStrings_sorted l₁) (sortStrings_sorted l₂)

theorem pagerReachable_not_started_cursor_empty {p : Pager} (h : PagerReachable p) :
    p.hasStarted = false → p.query.cursor = "" := by
  induction h with
  | init q hq => exact fun _ => hq
  | step p costs hp ih =>
    unfold Pager.nextPage
    by_cases hterm : p.hasStarted = true ∧ p.query.cursor = ""
    · rw [if_pos hterm]; exact ih
    · rw [if_neg hterm]
      cases hcost : costs p.query with
      | error e => exact ih
      | ok page => intro hfalse; cases hfalse

/-- C9: once the pager is terminal (a page has been fetched and the stored
cursor is empty), `NextPage` returns the "no more pages available" error
without invoking the client's `Costs` method and without changing the
pager's state, so every subsequent call behaves identically. -/
theorem pager_terminal_nextPage_rejects (p : Pager) (costs : Query → Except String Page)
    (h1 : p.hasStarted = true) (h2 : p.query.cursor = "") :
    (p.nextPage costs).pager = p ∧
    (p.nextPage costs).result = .error "no more pages available" ∧
    (p.nextPage costs).clientCalled = false := by
  unfold Pager.nextPage
  simp [h1, h2]

theorem pager_terminal_nextPage_rejects_witness :
    c9Pager.hasStarted = true ∧ c9Pager.query.cursor = "" ∧
    ((c9Pager.nextPage (fun _ => .ok emptyPage)).pager = c9Pager ∧
     (c9Pager.nextPage (fun _ => .ok emptyPage)).result = .error "no more pages available" ∧
     (c9Pager.nextPage (fun _ => .ok emptyPage)).clientCalled = false) :=
  ⟨rfl, rfl, pager_terminal_nextPage_rejects c9Pager (fun _ => .ok emptyPage) rfl rfl⟩

/-- C7: on every pager reachable from `NewPager` (empty initial cursor),
`HasMore` is true iff the stored cursor is non-empty and at least one page
has been fetched; the first `NextPage` call (before any fetch) always
reaches the client, and once a fetch has happened an empty cursor makes
`NextPage` fail. -/
theorem pager_hasMore_iff_cursor_and_started (p : Pager) (h : PagerReachable p) :
    (p.hasMore = true ↔ p.query.cursor ≠ "" ∧ p.hasStarted = true) ∧
    (p.hasStarted = false →
      ∀ costs : Query → Except String Page, (p.nextPage costs).clientCalled = true) ∧
    (p.hasStarted = true → p.query.cursor = "" →
      ∀ costs : Query → Except String Page,
        (p.nextPage costs).result = .error "no more pages available") := by
  refine ⟨?_, ?_, ?_⟩
  · unfold Pager.hasMore
    constructor
    · intro hm
      refine ⟨by simpa using hm, ?_⟩
      by_contra hns
      have hs : p.hasStarted = false := by
        cases hst : p.hasStarted
        · rfl
        · exact absurd hst hns
      have := pagerReachable_not_started_cursor_empty h hs
      simp [this] at hm
    · intro ⟨hc, _⟩
      simpa using hc
  · intro hs costs
    unfold Pager.nextPage
    simp only [hs]
    simp only [Bool.false_eq_true, false_and, if_false]
    cases costs p.query with
    | error e => rfl
    | ok page => rfl
  · intro hs hc costs
    unfold Pager.nextPage
    simp [hs, hc]

theorem pager_hasMore_iff_cursor_and_started_witness :
    PagerReachable c7Pager ∧
    (c7Pager.hasMore = true ↔ c7Pager.query.cursor ≠ "" ∧ c7Pager.hasStarted = true) :=
  have hreach : PagerReachable c7Pager :=
    PagerReachable.step (newPager emptyQuery) (fun _ => .ok c7Page)
      (PagerReachable.init emptyQuery rfl)
  ⟨hreach, (pager_hasMore_iff_cursor_and_started c7Pager hreach).1⟩

/-- C8 counterexample: tag normalisation of an empty (but non-nil) map
returns an empty non-nil map, not nil. -/
theorem normalizeTags_empty_not_nil : normalizeTags (some []) ≠ none := by decide

/-- C8 amended: a nil input yields nil output; an empty non-nil input
yields an empty non-nil map. -/
theorem normalizeTags_nil_and_empty :
    normalizeTags none = none ∧ normalizeTags (some []) = some [] := ⟨rfl, rfl⟩

/-- C1: on a 429 whose `X-RateLimit-Reset` header yields d = 10s at
attempt 0 within budget, the retrier counts the attempt and retries to
success — but it sleeps only `backoff(0)` (here exactly 1s at the median
jitter draw), never `max(d, backoff(0)) = 10s`: `waitBeforeRetry` ignores
the reset duration carried by the rate-limit error. -/
theorem rateLimited_retry_sleeps_backoff_not_reset :
    doCostsRequestOnce (c1Script 0) = .error (.rateLimit 10) ∧
    (doCostsRequest 5 c1Script (fun _ => mkRat 1 2)).result = .ok emptyPage ∧
    (doCostsRequest 5 c1Script (fun _ => mkRat 1 2)).invocations = 2 ∧
    (doCostsRequest 5 c1Script (fun _ => mkRat 1 2)).sleepsNs = [nsPerSec] ∧
    nsPerSec < 10 * nsPerSec := by decide

theorem retryLoop_invocations_le (maxRetries : Int) (script : Nat → AttemptResult)
    (jitter : Nat → ℚ) :
    ∀ (idxs : List Nat) (lastErr : Option VError),
      (retryLoop maxRetries script jitter idxs lastErr).invocations ≤ idxs.length
  | [], _ => by simp [retryLoop]
  | i :: rest, lastErr => by
    unfold retryLoop
    cases doCostsRequestOnce (script i) with
    | ok page => simp
    | error e =>
      by_cases hr : shouldRetry maxRetries e (i : Int) = true
      · simp only [hr, if_true, List.length_cons]
        exact Nat.succ_le_succ (retryLoop_invocations_le maxRetries script jitter rest (some e))
      · simp [hr]

/-- C3 amended: for a client built by `New` with configured
`max_retries ≥ 1`, one logical costs request invokes the transport at
most `1 + max_retries` times, for every outcome sequence and every jitter
draw.  (A configured value ≤ 0 is replaced by `New` with the default 5,
so the bound there is 6, not `1 + max_retries`.) -/
theorem clientDoCostsRequest_budget (cfg : Int) (script : Nat → AttemptResult)
    (jitter : Nat → ℚ) (hcfg : 1 ≤ cfg) :
    ((clientDoCostsRequest cfg script jitter).invocations : Int) ≤ 1 + cfg := by
  have heff : effectiveMaxRetries cfg = cfg := by
    unfold effectiveMaxRetries
    rw [if_neg (by omega)]
  unfold clientDoCostsRequest doCostsRequest
  rw [heff]
  have hlen := retryLoop_invocations_le cfg script jitter (List.range (cfg + 1).toNat) none
  rw [List.length_range] at hlen
  have : ((cfg + 1).toNat : Int) = cfg + 1 := Int.toNat_of_nonneg (by omega)
  omega

theorem clientDoCostsRequest_budget_witness :
    (1 : Int) ≤ 2 ∧
    ((clientDoCostsRequest 2 c3Script (fun _ => 0)).invocations : Int) ≤ 1 + 2 :=
  ⟨by decide, clientDoCostsRequest_budget 2 c3Script (fun _ => 0) (by decide)⟩

/-- C3 counterexample: with configured `max_retries = 0` (within the
claim's `≥ 0` range), `New` substitutes the default budget of 5, and a
run of consecutive 429s invokes the transport 6 times — more than
`1 + 0 = 1`. -/
theorem clientDoCostsRequest_zero_budget_counterexample :
    (clientDoCostsRequest 0 c3Script (fun _ => 0)).invocations = 6 ∧
    ¬ ((6 : Int) ≤ 1 + 0) := by decide

/-- C4 amended: agreement on all identifier inputs — report token,
hashed bucket-start date, the six dimensions, tag entries up to
permutation, metric names up to permutation, the eight numeric metrics,
usage unit and currency — implies equal line item identifiers; in
particular permuting tag iteration order or the metrics list never
changes the identifier.  (The converse direction of the claim's "iff"
fails: see the counterexample, the pipe-joined serialisation does not
escape `|` inside field values.) -/
theorem generateLineItemID_eq_of_agree
    (t₁ t₂ : String) (r₁ r₂ : CostRow) (m₁ m₂ : List String)
    (h : identifierInputsAgree t₁ t₂ r₁ r₂ m₁ m₂) :
    generateLineItemID t₁ r₁ m₁ = generateLineItemID t₂ r₂ m₂ := by
  obtain ⟨ht, hdate, hp, hs, ha, hpr, hr, hres, htags, hm,
    hc, hu, he, hl, ham, htax, hcr, href, huu, hcur⟩ := h
  have hsorted : sortStrings ((rowTags r₁).map fun kv => kv.1 ++ "=" ++ kv.2)
      = sortStrings ((rowTags r₂).map fun kv => kv.1 ++ "=" ++ kv.2) :=
    sortStrings_perm_eq (htags.map _)
  have hms : sortStrings m₁ = sortStrings m₂ := sortStrings_perm_eq hm
  have hlen : (rowTags r₁).length = (rowTags r₂).length := htags.length_eq
  unfold generateLineItemID lineItemSerial
  rw [ht, hdate, hp, hs, ha, hpr, hr, hres, hc, hu, he, hl, ham, htax, hcr, href,
    huu, hcur, hsorted, hms, hlen]

theorem generateLineItemID_eq_of_agree_witness :
    identifierInputsAgree "rpt" "rpt"
      { emptyRow with tags := some [("b", "2"), ("a", "1")] }
      { emptyRow with tags := some [("a", "1"), ("b", "2")] }
      ["usage", "cost"] ["cost", "usage"] ∧
    generateLineItemID "rpt" { emptyRow with tags := some [("b", "2"), ("a", "1")] }
        ["usage", "cost"]
      = generateLineItemID "rpt" { emptyRow with tags := some [("a", "1"), ("b", "2")] }
        ["cost", "usage"] :=
  ⟨by decide, generateLineItemID_eq_of_agree _ _ _ _ _ _ (by decide)⟩

/-- C4 counterexample: two rows that disagree on provider and service
(`"a|b"`/`"c"` versus `"a"`/`"b|c"`) produce the same pipe-joined
serialisation and hence the same identifier, refuting the claimed "iff". -/
theorem identifier_iff_counterexample :
    generateLineItemID "rpt" { emptyRow with provider := "a|b", service := "c" } []
      = generateLineItemID "rpt" { emptyRow with provider := "a", service := "b|c" } [] ∧
    ¬ identifierInputsAgree "rpt" "rpt"
        { emptyRow with provider := "a|b", service := "c" }
        { emptyRow with provider := "a", service := "b|c" } [] [] :=
  ⟨congrArg sha256Hex16 (by decide), by decide⟩

set_option maxRecDepth 4000000 in
/-- C5: the identifier does not depend on bucket_start only through its
UTC calendar date.  `c5RowUTC` and `c5RowPlus2` carry the same instant
(2024-01-01T23:00:00Z, same UTC day) in different zone representations;
`Format("2006-01-02")` renders the value's own wall clock, giving
different hashed dates and different identifiers.  The spec's "all date
formatting for hashing uses UTC calendar date" names the intent; the code
omits the UTC conversion. -/
theorem zone_representation_changes_identifier :
    c5RowUTC.bucketStart.sec = c5RowPlus2.bucketStart.sec ∧
    c5RowUTC.bucketStart.utcCivilDate = c5RowPlus2.bucketStart.utcCivilDate ∧
    goFormatDate c5RowUTC.bucketStart = "2024-01-01" ∧
    goFormatDate c5RowPlus2.bucketStart = "2024-01-02" ∧
    generateLineItemID "rpt" c5RowUTC ["cost"]
      ≠ generateLineItemID "rpt" c5RowPlus2 ["cost"] := by decide

theorem addDiagnostics_diagnostics_none (record : CostRecord)
    (h1 : missingFieldChecks record = []) (h2 : warningChecks record = []) :
    (addDiagnostics record).diagnostics = none := by
  unfold addDiagnostics
  rw [h1, h2]
  simp [Diagnostics.hasIssues]

/-- C6: a vendor row mapped with metric type "cost" whose record has the
six required string fields non-empty, a present non-negative net cost,
consistent usage amount/unit (both present or both absent, where zero
usage is absent), and list cost ≥ net cost whenever a list cost is
present, carries no diagnostics object. -/
theorem clean_cost_row_has_no_diagnostics (row : CostRow) (query : Query) (qh : String)
    (hprov : row.provider ≠ "") (hserv : row.service ≠ "") (hacct : row.account ≠ "")
    (hreg : row.region ≠ "") (hcur : row.currency ≠ "") (hres : row.resourceID ≠ "")
    (husage : (row.usageQuantity = 0 ∧ row.usageUnit = "") ∨
              (row.usageQuantity ≠ 0 ∧ row.usageUnit ≠ ""))
    (hnetPresent : row.cost ≠ 0) (hnetNonneg : 0 ≤ row.cost)
    (hlist : row.listCost = 0 ∨ row.cost ≤ row.listCost) :
    (mapVantageRowToCostRecord row query qh "cost").diagnostics = none := by
  have hnotneg : ¬ row.cost < 0 := not_lt.mpr hnetNonneg
  simp only [mapVantageRowToCostRecord]
  refine addDiagnostics_diagnostics_none _ ?_ ?_
  · unfold missingFieldChecks
    dsimp only
    simp only [optOfNonzero, if_neg hnetPresent]
    simp [hprov, hserv, hacct, hreg, hcur, hnetPresent]
  · unfold warningChecks
    dsimp only
    simp only [optOfNonzero, if_neg hnetPresent, usagePresentNonzero,
      netCostNegative, listBelowNet]
    rcases husage with ⟨hq, hunit⟩ | ⟨hq, hunit⟩
    · rcases hlist with hl | hl
      · simp [hq, hunit, hres, hnotneg, hl]
      · have hln : ¬ row.listCost < row.cost := not_lt.mpr hl
        by_cases hlz : row.listCost = 0
        · simp [hq, hunit, hres, hnotneg, hlz]
        · simp [hq, hunit, hres, hnotneg, hlz, hln]
    · rcases hlist with hl | hl
      · simp [hq, hunit, hres, hnotneg, hl]
      · have hln : ¬ row.listCost < row.cost := not_lt.mpr hl
        by_cases hlz : row.listCost = 0
        · simp [hq, hunit, hres, hnotneg, hlz]
        · simp [hq, hunit, hres, hnotneg, hlz, hln]

theorem clean_cost_row_has_no_diagnostics_witness :
    c6Row.provider ≠ "" ∧ c6Row.service ≠ "" ∧ c6Row.account ≠ "" ∧
    c6Row.region ≠ "" ∧ c6Row.currency ≠ "" ∧ c6Row.resourceID ≠ "" ∧
    ((c6Row.usageQuantity = 0 ∧ c6Row.usageUnit = "") ∨
      (c6Row.usageQuantity ≠ 0 ∧ c6Row.usageUnit ≠ "")) ∧
    c6Row.cost ≠ 0 ∧ 0 ≤ c6Row.cost ∧
    (c6Row.listCost = 0 ∨ c6Row.cost ≤ c6Row.listCost) ∧
    (mapVantageRowToCostRecord c6Row emptyQuery "qh" "cost").diagnostics = none :=
  ⟨by decide, by decide, by decide, by decide, by decide, by decide,
   by decide, by decide, by decide, by decide,
   clean_cost_row_has_no_diagnostics c6Row emptyQuery "qh"
     (by decide) (by decide) (by decide) (by decide) (by decide) (by decide)
     (by decide) (by decide) (by decide) (by decide)⟩

theorem addDiagnostics_some_of_missing (record : CostRecord)
    (h : missingFieldChecks record ≠ []) :
    (addDiagnostics record).diagnostics =
      some { missingFields := missingFieldChecks record,
             warnings := warningChecks record } := by
  have hi : Diagnostics.hasIssues
      { missingFields := missingFieldChecks record, warnings := warningChecks record } = true := by
    simp [Diagnostics.hasIssues, List.length_pos.mpr h]
  simp only [addDiagnostics]
  rw [if_pos hi]

/-- C10: every record the forecast branch produces carries a non-nil
diagnostics object whose missing-field set includes provider, service,
account_id and region — the vendor row handed to the mapper carries only
bucket bounds, cost and currency. -/
theorem forecast_records_flag_missing_core_fields (cfg : AdapterConfig) (qh : String)
    (rows : List ForecastRow) (r : CostRecord)
    (hr : r ∈ syncForecastRecords cfg qh rows) :
    ∃ d, r.diagnostics = some d ∧
      "provider" ∈ d.missingFields.map Prod.fst ∧
      "service" ∈ d.missingFields.map Prod.fst ∧
      "account_id" ∈ d.missingFields.map Prod.fst ∧
      "region" ∈ d.missingFields.map Prod.fst := by
  rw [syncForecastRecords, List.mem_map] at hr
  obtain ⟨frow, _, rfl⟩ := hr
  simp only [mapVantageRowToCostRecord]
  rw [addDiagnostics_some_of_missing]
  · refine ⟨_, rfl, ?_, ?_, ?_, ?_⟩ <;> simp [missingFieldChecks]
  · simp [missingFieldChecks]

theorem forecast_records_flag_missing_core_fields_witness :
    ∃ r, r ∈ syncForecastRecords c2Config "qh" [c10Row] ∧
      ∃ d, r.diagnostics = some d ∧
        "provider" ∈ d.missingFields.map Prod.fst ∧
        "service" ∈ d.missingFields.map Prod.fst ∧
        "account_id" ∈ d.missingFields.map Prod.fst ∧
        "region" ∈ d.missingFields.map Prod.fst := by
  refine ⟨mapVantageRowToCostRecord
      { bucketStart := c10Row.bucketStart
        bucketEnd := c10Row.bucketEnd
        provider := "", service := "", account := "", project := "", region := ""
        resourceID := "", tags := none
        cost := c10Row.cost, usageQuantity := 0, effectiveUnitPrice := 0, listCost := 0
        amortizedCost := 0, tax := 0, credit := 0, refund := 0
        usageUnit := "", currency := c10Row.currency }
      { workspaceToken := "", costReportToken := c2Config.costReportToken
        startAt := goTimeZero, endAt := goTimeZero, granularity := c2Config.granularity
        groupBys := [], metrics := [], pageSize := 0, cursor := "" }
      "qh" "forecast", ?_, ?_⟩
  · exact List.mem_singleton.mpr rfl
  · exact forecast_records_flag_missing_core_fields c2Config "qh" [c10Row] _
      (List.mem_singleton.mpr rfl)

theorem setBookmark_not_mem_forecastEvents (cfg : AdapterConfig) (qh : String)
    (fc : Except String (List ForecastRow)) (k v : String) :
    SinkEvent.setBookmark k v ∉ forecastEvents cfg qh fc := by
  unfold forecastEvents
  by_cases hb : cfg.includeForecast = true ∧ cfg.costReportToken ≠ ""
  · rw [if_pos hb]
    cases fc <;> simp
  · rw [if_neg hb]
    simp

/-- C2: in a non-backfill single-range sync whose fetch phase succeeds
with records `recs`: a `WriteRecords` failure makes the sync return that
error with `SetBookmark` never called; a `WriteRecords` success is
followed immediately by `SetBookmark` of the bookmark key to the end
instant in RFC3339, and the sync returns nil regardless of whether this
sink's `SetBookmark` fails (its result is only logged); a failing fetch
propagates its error with `SetBookmark` never called; and a backfill
sync never calls `SetBookmark` at all. -/
theorem syncSingleRange_bookmark_discipline (cfg : AdapterConfig) (s e : GoTime)
    (sink : SinkBehavior) (resp : List (Except String Page))
    (fc : Except String (List ForecastRow)) (recs : List CostRecord)
    (hfetch : (fetchAndCollectRecords (appliedQuery cfg s e false sink)
        (syncQueryHash cfg s e) resp).1 = .ok recs) :
    (∀ emsg, sink.writeRes 0 = some emsg →
      (syncSingleRange cfg s e false sink resp fc).errorResult
          = some ("writing records: " ++ emsg) ∧
      ∀ k v, SinkEvent.setBookmark k v ∉ (syncSingleRange cfg s e false sink resp fc).events) ∧
    (sink.writeRes 0 = none →
      (∃ pre post, (syncSingleRange cfg s e false sink resp fc).events =
          pre ++ SinkEvent.writeRecords recs
            :: SinkEvent.setBookmark (syncBookmarkKey cfg s e) (goFormatRFC3339 e) :: post) ∧
      (syncSingleRange cfg s e false sink resp fc).errorResult = none) ∧
    (∀ resp2 err fc2,
      (fetchAndCollectRecords (appliedQuery cfg s e false sink)
          (syncQueryHash cfg s e) resp2).1 = .error err →
      (syncSingleRange cfg s e false sink resp2 fc2).errorResult = some err ∧
      ∀ k v, SinkEvent.setBookmark k v ∉ (syncSingleRange cfg s e false sink resp2 fc2).events) ∧
    (∀ sink2 resp2 fc2 k v,
      SinkEvent.setBookmark k v ∉ (syncSingleRange cfg s e true sink2 resp2 fc2).events) := by
  refine ⟨?_, ?_, ?_, ?_⟩
  · intro emsg hw
    simp only [syncSingleRange, hfetch, hw]
    constructor
    · trivial
    · intro k v
      simp
  · intro hw
    simp only [syncSingleRange, hfetch, hw]
    constructor
    · exact ⟨[SinkEvent.getBookmark (syncBookmarkKey cfg s e)],
        forecastEvents cfg (syncQueryHash cfg s e) fc, by simp⟩
    · trivial
  · intro resp2 err fc2 hferr
    simp only [syncSingleRange, hferr]
    exact ⟨trivial, fun k v => by simp⟩
  · intro sink2 resp2 fc2 k v
    simp only [syncSingleRange]
    cases hf : (fetchAndCollectRecords (appliedQuery cfg s e true sink2)
        (syncQueryHash cfg s e) resp2).1 with
    | error err => simp
    | ok allRecords =>
      cases hw : sink2.writeRes 0 with
      | some err => simp
      | none =>
        simp only [if_pos rfl, List.nil_append]
        intro hmem
        rcases List.mem_append.mp hmem with h1 | h2
        · simp at h1
        · exact setBookmark_not_mem_forecastEvents cfg (syncQueryHash cfg s e) fc2 k v h2

theorem syncSingleRange_bookmark_discipline_witness :
    (fetchAndCollectRecords (appliedQuery c2Config c2Start c2End false c2Sink)
        (syncQueryHash c2Config c2Start c2End) [.ok emptyPage]).1 = .ok [] ∧
    ((∃ pre post,
        (syncSingleRange c2Config c2Start c2End false c2Sink [.ok emptyPage]
            (.error "nope")).events =
          pre ++ SinkEvent.writeRecords []
            :: SinkEvent.setBookmark (syncBookmarkKey c2Config c2Start c2End)
                (goFormatRFC3339 c2End) :: post) ∧
      (syncSingleRange c2Config c2Start c2End false c2Sink [.ok emptyPage]
          (.error "nope")).errorResult = none) :=
  have hf : (fetchAndCollectRecords (appliedQuery c2Config c2Start c2End false c2Sink)
      (syncQueryHash c2Config c2Start c2End) [.ok emptyPage]).1 = .ok [] := rfl
  ⟨hf, (syncSingleRange_bookmark_discipline c2Config c2Start c2End c2Sink
      [.ok emptyPage] (.error "nope") [] hf).2.1 rfl⟩
